import Mathlib

/-!
Shallow embedding of the crash-capture and runtime-location core of the
`davybot` host application (`src/webui/src-tauri/src/crash_handler.rs` and
`src/webui/src-tauri/src/main.rs`), together with theorems settling the
spec claims about it.

Modelling conventions:
* Rust `u64` timestamps are `Nat` (the on-disk parser enforces the `2^64`
  bound where the source's `u64` deserializer would).
* System interactions (`SystemTime::now`, `std::env::current_exe`,
  `fs::read_dir`, `fs::read_to_string`, environment variables, `which`)
  are threaded as explicit environment/world records; each Rust function
  becomes a pure Lean function of that record.
* `serde_json` (de)serialization of `CrashReport` is embedded as a
  concrete text printer mirroring `serde_json::to_string_pretty` on the
  derived `Serialize` (field order = declaration order, two-space pretty
  layout, JSON string escaping) and a concrete text parser mirroring the
  derived `Deserialize` on flat JSON objects (whitespace tolerated,
  fields in any order, unknown fields ignored, missing/ill-typed fields
  rejected, `u64` range enforced for `timestamp`).
-/

/-- The `CrashReport` struct of `crash_handler.rs` (lines 12–28). -/
structure CrashReport where
  timestamp : Nat
  timestamp_iso : String
  error_message : String
  backtrace : String
  platform : String
  app_version : String
  filename : String
deriving Repr, DecidableEq

/-- Ambient data `CrashReport::new` reads from the system: the clock
(seconds since epoch, an RFC-3339 rendering, and the
`%Y%m%d_%H%M%S`-formatted local time), the OS name
(`std::env::consts::OS`) and the compile-time crate version. -/
structure NewEnv where
  nowSecs : Nat
  nowRfc3339 : String
  nowCompact : String
  osName : String
  crateVersion : String

/-- `CrashReport::new` (crash_handler.rs lines 32–53): stamps time,
platform and version, copies `error`/`backtrace` verbatim, and derives
`filename = "crash_<%Y%m%d_%H%M%S>.json"`. -/
def CrashReport.new (env : NewEnv) (error backtrace : String) : CrashReport :=
  { timestamp := env.nowSecs
    timestamp_iso := env.nowRfc3339
    error_message := error
    backtrace := backtrace
    platform := env.osName
    app_version := env.crateVersion
    filename := "crash_" ++ env.nowCompact ++ ".json" }

/-! ## JSON text layer (`serde_json` derived Serialize/Deserialize for `CrashReport`)

The printer mirrors `serde_json::to_string_pretty` on the derived
`Serialize`: `{`, newline, two-space-indented `"key": value` members
separated by `,` + newline, closing newline + `}`; strings escape `"`,
`\`, and control characters (`\b \t \n \f \r`, otherwise `\u00XX` with
lowercase hex); numbers print in decimal. The parser mirrors the
derived `Deserialize` for the flat object form the struct serializes
to: whitespace-tolerant, members in any order, unknown members ignored,
missing or ill-typed members rejected. -/

/-- One JSON scalar, the only value forms a serialized `CrashReport`
contains (a `u64` or a string). -/
inductive Jval where
  | jnum (n : Nat)
  | jstr (s : String)
deriving Repr, DecidableEq

/-- Lowercase hex digit, as in `serde_json`'s escape table. -/
def hexDigitChar (n : Nat) : Char :=
  if n < 10 then Char.ofNat (48 + n) else Char.ofNat (87 + n)

/-- `serde_json` string escaping of one character. -/
def escapeChar (c : Char) : List Char :=
  if c = '"' then ['\\', '"']
  else if c = '\\' then ['\\', '\\']
  else if 32 ≤ c.toNat then [c]
  else if c.toNat = 8 then ['\\', 'b']
  else if c.toNat = 9 then ['\\', 't']
  else if c.toNat = 10 then ['\\', 'n']
  else if c.toNat = 12 then ['\\', 'f']
  else if c.toNat = 13 then ['\\', 'r']
  else ['\\', 'u', '0', '0', hexDigitChar (c.toNat / 16), hexDigitChar (c.toNat % 16)]

/-- Escape a whole string body. -/
def escapeList : List Char → List Char
  | [] => []
  | c :: cs => escapeChar c ++ escapeList cs

/-- Decimal digit character. -/
def digitChar (d : Nat) : Char := Char.ofNat (48 + d)

/-- Decimal printing of a `u64`, most-significant digit first. -/
def printNatChars (n : Nat) : List Char :=
  if n = 0 then ['0'] else ((Nat.digits 10 n).map digitChar).reverse

/-- Print one JSON scalar. -/
def printJval : Jval → List Char
  | .jnum n => printNatChars n
  | .jstr s => '"' :: (escapeList s.data ++ ['"'])

/-- Print one pretty-printed object member (two-space indent). -/
def printMember (k : String) (v : Jval) : List Char :=
  ' ' :: ' ' :: '"' :: (escapeList k.data ++ ['"', ':', ' '] ++ printJval v)

/-- Print the members, separated by `",\n"`. -/
def printMembersSep : List (String × Jval) → List Char
  | [] => []
  | [(k, v)] => printMember k v
  | (k, v) :: m :: ms => printMember k v ++ ',' :: '\n' :: printMembersSep (m :: ms)

/-- Pretty-print a flat JSON object. -/
def printFlatObj (ms : List (String × Jval)) : List Char :=
  match ms with
  | [] => ['{', '}']
  | _ => '{' :: '\n' :: (printMembersSep ms ++ ['\n', '}'])

/-- The field list of a serialized `CrashReport`, in declaration order
(the order the derived `Serialize` emits). -/
def CrashReport.fields (r : CrashReport) : List (String × Jval) :=
  [("timestamp", .jnum r.timestamp),
   ("timestamp_iso", .jstr r.timestamp_iso),
   ("error_message", .jstr r.error_message),
   ("backtrace", .jstr r.backtrace),
   ("platform", .jstr r.platform),
   ("app_version", .jstr r.app_version),
   ("filename", .jstr r.filename)]

/-- `CrashReport::to_json` (crash_handler.rs lines 56–58):
`serde_json::to_string_pretty` of the report (serialization of this
struct cannot fail, so the `unwrap_or_else` fallback is dead). -/
def CrashReport.to_json (r : CrashReport) : String :=
  String.mk (printFlatObj r.fields)

/-! ### Parsing -/

/-- JSON insignificant whitespace. -/
def isJsonWs (c : Char) : Bool := c = ' ' || c = '\n' || c = '\t' || c = '\r'

/-- Skip insignificant whitespace. -/
def skipWs (l : List Char) : List Char := l.dropWhile isJsonWs

/-- Value of one hex digit. -/
def hexVal (c : Char) : Option Nat :=
  if 48 ≤ c.toNat ∧ c.toNat ≤ 57 then some (c.toNat - 48)
  else if 97 ≤ c.toNat ∧ c.toNat ≤ 102 then some (c.toNat - 87)
  else if 65 ≤ c.toNat ∧ c.toNat ≤ 70 then some (c.toNat - 55)
  else none

/-- Single-character JSON escapes. -/
def unescapeChar (e : Char) : Option Char :=
  if e = '"' then some '"'
  else if e = '\\' then some '\\'
  else if e = '/' then some '/'
  else if e = 'b' then some (Char.ofNat 8)
  else if e = 'f' then some (Char.ofNat 12)
  else if e = 'n' then some (Char.ofNat 10)
  else if e = 'r' then some (Char.ofNat 13)
  else if e = 't' then some (Char.ofNat 9)
  else none

/-- Read four hex digits. -/
def readHex4 (l : List Char) : Option (Nat × List Char) :=
  match l with
  | h1 :: h2 :: h3 :: h4 :: rest =>
    match hexVal h1, hexVal h2, hexVal h3, hexVal h4 with
    | some a, some b, some c, some d => some (((a * 16 + b) * 16 + c) * 16 + d, rest)
    | _, _, _, _ => none
  | _ => none

/-- Read one escape sequence (after the backslash).  Unpaired-surrogate
`\uXXXX` escapes are rejected, as in `serde_json`'s strict mode. -/
def readEscape (l : List Char) : Option (Char × List Char) :=
  match l with
  | [] => none
  | e :: rest =>
    if e = 'u' then
      match readHex4 rest with
      | some (n, rest2) =>
        if n < 55296 ∨ 57344 ≤ n then some (Char.ofNat n, rest2) else none
      | none => none
    else (unescapeChar e).map (fun u => (u, rest))

/-- Parse a JSON string body (after the opening quote) up to and
including the closing quote; returns the decoded characters and the
rest of the input.  `fuel` bounds the number of decoded characters. -/
def parseStringBodyF : Nat → List Char → Option (List Char × List Char)
  | 0, _ => none
  | _, [] => none
  | fuel + 1, c :: rest =>
    if c = '"' then some ([], rest)
    else if c = '\\' then
      match readEscape rest with
      | some (u, rest2) =>
        match parseStringBodyF fuel rest2 with
        | some (s, r) => some (u :: s, r)
        | none => none
      | none => none
    else if c.toNat < 32 then none
    else
      match parseStringBodyF fuel rest with
      | some (s, r) => some (c :: s, r)
      | none => none

/-- String-body parser with enough fuel for its whole input. -/
def parseStringBody (l : List Char) : Option (List Char × List Char) :=
  parseStringBodyF (l.length + 1) l

/-- Decimal digit test (`b'0'..=b'9'`). -/
def isDig (c : Char) : Bool := 48 ≤ c.toNat && c.toNat ≤ 57

/-- Parse a maximal run of decimal digits as a `Nat`. -/
def parseNumber (l : List Char) : Option (Nat × List Char) :=
  let ds := l.takeWhile isDig
  if ds.isEmpty then none
  else some (ds.foldl (fun acc c => acc * 10 + (c.toNat - 48)) 0, l.dropWhile isDig)

/-- Parse one scalar JSON value token. -/
def parseJvalTok (l : List Char) : Option (Jval × List Char) :=
  match l with
  | [] => none
  | c :: rest =>
    if c = '"' then
      match parseStringBody rest with
      | some (s, r) => some (.jstr (String.mk s), r)
      | none => none
    else if isDig c then
      match parseNumber l with
      | some (n, r) => some (.jnum n, r)
      | none => none
    else none

/-- Parse the members of a flat object, positioned at the opening quote
of the first key; consumes the closing `}`.  `fuel` bounds the number of
members. -/
def parseMembers (fuel : Nat) (l : List Char) : Option (List (String × Jval) × List Char) :=
  match fuel with
  | 0 => none
  | fuel + 1 =>
    match l with
    | [] => none
    | c :: rest =>
      if c = '"' then
        match parseStringBody rest with
        | some (k, r1) =>
          match skipWs r1 with
          | [] => none
          | c2 :: r3 =>
            if c2 = ':' then
              match parseJvalTok (skipWs r3) with
              | some (v, r4) =>
                match skipWs r4 with
                | [] => none
                | c3 :: r5 =>
                  if c3 = ',' then
                    match parseMembers fuel (skipWs r5) with
                    | some (ms, r6) => some ((String.mk k, v) :: ms, r6)
                    | none => none
                  else if c3 = '}' then some ([(String.mk k, v)], r5)
                  else none
              | none => none
            else none
        | none => none
      else none

/-- Parse a whole flat JSON object (with arbitrary surrounding
whitespace, nothing after it). -/
def parseFlatObj (s : String) : Option (List (String × Jval)) :=
  match skipWs s.data with
  | [] => none
  | c :: rest =>
    if c = '{' then
      match skipWs rest with
      | [] => none
      | c2 :: rest2 =>
        if c2 = '}' then
          if (skipWs rest2).isEmpty then some [] else none
        else
          match parseMembers (rest2.length + 1) (c2 :: rest2) with
          | some (ms, r) => if (skipWs r).isEmpty then some ms else none
          | none => none
    else none

/-- Look up a member by key (first occurrence). -/
def jlookup (k : String) : List (String × Jval) → Option Jval
  | [] => none
  | (k', v) :: ms => if k' = k then some v else jlookup k ms

/-- Extract a required string member. -/
def getStrField (ms : List (String × Jval)) (k : String) : Option String :=
  match jlookup k ms with
  | some (.jstr s) => some s
  | _ => none

/-- Extract a required `u64` member (range-checked, as the `u64`
deserializer does). -/
def getU64Field (ms : List (String × Jval)) (k : String) : Option Nat :=
  match jlookup k ms with
  | some (.jnum n) => if n < 2 ^ 64 then some n else none
  | _ => none

/-- `serde_json::from_str::<CrashReport>`: parse the JSON text and
extract the seven struct fields (any member order, unknown members
ignored, missing or ill-typed members are an error). -/
def parseCrashReport (s : String) : Option CrashReport := do
  let ms ← parseFlatObj s
  let timestamp ← getU64Field ms "timestamp"
  let timestamp_iso ← getStrField ms "timestamp_iso"
  let error_message ← getStrField ms "error_message"
  let backtrace ← getStrField ms "backtrace"
  let platform ← getStrField ms "platform"
  let app_version ← getStrField ms "app_version"
  let filename ← getStrField ms "filename"
  pure { timestamp, timestamp_iso, error_message, backtrace,
         platform, app_version, filename }

/-! ## Panic hook (`setup_panic_hook`, crash_handler.rs lines 137–158) -/

/-- The dynamic type of a Rust panic payload, as far as the hook's two
`downcast_ref` probes can distinguish it: a `&'static str`, an owned
`String`, or anything else. -/
inductive PanicPayload where
  | strRef (s : String)
  | strOwned (s : String)
  | other
deriving Repr, DecidableEq

/-- Source location attached to a panic, when available:
file, line, column. -/
structure PanicLocation where
  file : String
  line : Nat
  column : Nat
deriving Repr, DecidableEq

/-- Message extraction of the hook (lines 140–146): `&str` payloads and
`String` payloads are taken verbatim, anything else becomes
`"Unknown panic"`. -/
def panicMessage : PanicPayload → String
  | .strRef s => s
  | .strOwned s => s
  | .other => "Unknown panic"

/-- Location rendering (lines 149–151): `format!("{}:{}:{}", file, line, column)`. -/
def panicLocationString (l : PanicLocation) : String :=
  l.file ++ ":" ++ toString l.line ++ ":" ++ toString l.column

/-- The full error message the hook builds (lines 154–158):
prefix `"Panic at <file>:<line>:<column>: "` when a location is present,
the bare message otherwise. -/
def panicFullError (p : PanicPayload) (loc : Option PanicLocation) : String :=
  match loc with
  | some l => "Panic at " ++ panicLocationString l ++ ": " ++ panicMessage p
  | none => panicMessage p

/-! ### Round-trip lemmas: string escaping -/

theorem hexVal_hexDigitChar (x : Nat) (h : x < 16) : hexVal (hexDigitChar x) = some x := by
  interval_cases x <;> decide

theorem hexVal_zero : hexVal '0' = some 0 := by decide

theorem length_le_length_escapeList (s : List Char) : s.length ≤ (escapeList s).length := by
  induction s with
  | nil => simp [escapeList]
  | cons c cs ih =>
    have h1 : 1 ≤ (escapeChar c).length := by
      unfold escapeChar
      repeat' split
      all_goals simp
    simp only [escapeList, List.length_append, List.length_cons]
    omega

theorem parseStringBodyF_escapeList (s : List Char) :
    ∀ (fuel : Nat) (rest : List Char), s.length < fuel →
      parseStringBodyF fuel (escapeList s ++ '"' :: rest) = some (s, rest) := by
  induction s with
  | nil =>
    intro fuel rest hf
    match fuel, hf with
    | fuel + 1, _ => simp [escapeList, parseStringBodyF]
  | cons c cs ih =>
    intro fuel rest hf
    match fuel, hf with
    | fuel + 1, hf =>
      have hcs : cs.length < fuel := by simp at hf; omega
      show parseStringBodyF (fuel + 1) ((escapeChar c ++ escapeList cs) ++ '"' :: rest) = _
      rw [List.append_assoc]
      by_cases h1 : c = '"'
      · subst h1
        simp [escapeChar, parseStringBodyF, readEscape, unescapeChar, ih fuel rest hcs]
      · by_cases h2 : c = '\\'
        · subst h2
          simp [escapeChar, parseStringBodyF, readEscape, unescapeChar, ih fuel rest hcs]
        · by_cases h3 : 32 ≤ c.toNat
          · simp [escapeChar, h1, h2, h3, parseStringBodyF, Nat.not_lt.mpr h3, ih fuel rest hcs]
          · have hlt : c.toNat < 32 := Nat.lt_of_not_le h3
            by_cases h8 : c.toNat = 8
            · have hc : c = Char.ofNat 8 := by rw [← h8, Char.ofNat_toNat]
              simp [escapeChar, h1, h2, h3, h8, parseStringBodyF, readEscape, unescapeChar,
                ih fuel rest hcs, hc]
            · by_cases h9 : c.toNat = 9
              · have hc : c = Char.ofNat 9 := by rw [← h9, Char.ofNat_toNat]
                simp [escapeChar, h1, h2, h3, h8, h9, parseStringBodyF, readEscape, unescapeChar,
                  ih fuel rest hcs, hc]
              · by_cases h10 : c.toNat = 10
                · have hc : c = Char.ofNat 10 := by rw [← h10, Char.ofNat_toNat]
                  simp [escapeChar, h1, h2, h3, h8, h9, h10, parseStringBodyF, readEscape,
                    unescapeChar, ih fuel rest hcs, hc]
                · by_cases h12 : c.toNat = 12
                  · have hc : c = Char.ofNat 12 := by rw [← h12, Char.ofNat_toNat]
                    simp [escapeChar, h1, h2, h3, h8, h9, h10, h12, parseStringBodyF, readEscape,
                      unescapeChar, ih fuel rest hcs, hc]
                  · by_cases h13 : c.toNat = 13
                    · have hc : c = Char.ofNat 13 := by rw [← h13, Char.ofNat_toNat]
                      simp [escapeChar, h1, h2, h3, h8, h9, h10, h12, h13, parseStringBodyF,
                        readEscape, unescapeChar, ih fuel rest hcs, hc]
                    · have hdiv : c.toNat / 16 < 16 := by omega
                      have hmod : c.toNat % 16 < 16 := Nat.mod_lt _ (by norm_num)
                      have hval : c.toNat / 16 * 16 + c.toNat % 16 = c.toNat := by
                        omega
                      have hc : Char.ofNat c.toNat = c := Char.ofNat_toNat c
                      simp [escapeChar, h1, h2, h3, h8, h9, h10, h12, h13, parseStringBodyF,
                        readEscape, readHex4, hexVal_zero,
                        hexVal_hexDigitChar _ hdiv, hexVal_hexDigitChar _ hmod, hval,
                        ih fuel rest hcs, hc, show c.toNat < 55296 from by omega]

theorem parseStringBody_escapeList (s rest : List Char) :
    parseStringBody (escapeList s ++ '"' :: rest) = some (s, rest) := by
  apply parseStringBodyF_escapeList
  have := length_le_length_escapeList s
  simp only [List.length_append, List.length_cons]
  omega

/-! ### Round-trip lemmas: decimal numbers -/

theorem isDig_digitChar (d : Nat) (h : d < 10) : isDig (digitChar d) = true := by
  interval_cases d <;> decide

theorem toNat_digitChar (d : Nat) (h : d < 10) : (digitChar d).toNat = 48 + d := by
  interval_cases d <;> decide

theorem printNatChars_all_digits (n : Nat) : ∀ c ∈ printNatChars n, isDig c = true := by
  intro c hc
  unfold printNatChars at hc
  by_cases h : n = 0
  · simp [h] at hc
    subst hc; decide
  · simp only [h, if_false, List.mem_reverse, List.mem_map] at hc
    obtain ⟨d, hd, rfl⟩ := hc
    exact isDig_digitChar d (Nat.digits_lt_base (by norm_num) hd)

theorem printNatChars_ne_nil (n : Nat) : printNatChars n ≠ [] := by
  unfold printNatChars
  by_cases h : n = 0
  · simp [h]
  · simp only [h, if_false, ne_eq, List.reverse_eq_nil_iff, List.map_eq_nil_iff]
    exact Nat.digits_ne_nil_iff_ne_zero.mpr h

theorem foldl_decimal (l : List Nat) (hl : ∀ d ∈ l, d < 10) (a : Nat) :
    ((l.map digitChar).reverse).foldl (fun acc c => acc * 10 + (c.toNat - 48)) a
      = a * 10 ^ l.length + Nat.ofDigits 10 l := by
  induction l generalizing a with
  | nil => simp
  | cons d l ih =>
    have hd : d < 10 := hl d (by simp)
    have hl' : ∀ d ∈ l, d < 10 := fun x hx => hl x (by simp [hx])
    simp only [List.map_cons, List.reverse_cons, List.foldl_append, List.foldl_cons,
      List.foldl_nil, ih hl']
    rw [toNat_digitChar d hd, Nat.ofDigits_cons]
    simp only [List.length_cons, pow_succ, Nat.add_sub_cancel_left]
    ring

theorem parseNumber_print (n : Nat) (c : Char) (rest : List Char) (hc : isDig c = false) :
    parseNumber (printNatChars n ++ c :: rest) = some (n, c :: rest) := by
  have hall := printNatChars_all_digits n
  unfold parseNumber
  rw [List.takeWhile_append_of_pos hall, List.dropWhile_append_of_pos hall]
  simp only [List.takeWhile_cons, List.dropWhile_cons, hc, if_false, Bool.false_eq_true,
    List.append_nil]
  have hne : (printNatChars n).isEmpty = false := by
    cases h : printNatChars n with
    | nil => exact absurd h (printNatChars_ne_nil n)
    | cons x xs => rfl
  rw [hne]
  simp only [Bool.false_eq_true, if_false, Option.some.injEq, Prod.mk.injEq, and_true]
  unfold printNatChars
  by_cases h : n = 0
  · simp [h]
  · simp only [h, if_false]
    rw [foldl_decimal _ (fun d hd => Nat.digits_lt_base (by norm_num) hd) 0]
    simp [Nat.ofDigits_digits]

/-! ## Filesystem world model

`crash_handler.rs`'s storage functions interact with the OS through
`std::env::current_exe`, `fs::read_dir`, `fs::read_to_string`,
`fs::create_dir_all`, `File::create`/`write_all` and
`fs::remove_dir_all`.  A `World` records the outcome each of those
calls would produce; the Rust functions become pure functions of (and,
for the mutating ones, on) a `World`. -/

structure World where
  /-- `std::env::current_exe()`: the executable path, `none` = `Err`. -/
  currentExe : Option String
  /-- `Path::parent()` of the executable path, `none` = no parent. -/
  exeParent : Option String
  /-- `Path::exists`. -/
  dirExists : String → Bool
  /-- `fs::read_dir`: the file names of the `Ok` entries (the source's
  `entries.flatten()` drops `Err` entries), in enumeration order;
  `none` = `read_dir` itself failed (e.g. missing directory). -/
  readDir : String → Option (List String)
  /-- `fs::read_to_string`: `none` = read error. -/
  readFile : String → Option String
  /-- `fs::create_dir_all` error for a directory that does not exist
  yet (creating an existing directory always succeeds). -/
  createDirErr : String → Option String
  /-- `File::create` + `write_all` error for a path. -/
  createFileErr : String → Option String
  /-- `fs::remove_dir_all` error for a directory. -/
  removeDirErr : String → Option String

/-- `get_crashes_dir` (crash_handler.rs lines 94–99):
`current_exe().ok()?.parent()?` joined with `"crashes"`. -/
def get_crashes_dir (w : World) : Option String :=
  match w.currentExe with
  | none => none
  | some _ =>
    match w.exeParent with
    | none => none
    | some p => some (p ++ "/crashes")

/-- The characters after the last `'.'` of a list, if any. -/
def extAfterLastDot : List Char → Option (List Char)
  | [] => none
  | c :: cs =>
    match extAfterLastDot cs with
    | some e => some e
    | none => if c = '.' then some cs else none

/-- Rust `Path::extension` on a bare file name: the portion after the
last `'.'`, unless the only `'.'` is the leading one (hidden files have
no extension). -/
def fileExtension (name : String) : Option String :=
  match name.data with
  | [] => none
  | _ :: rest => (extAfterLastDot rest).map String.mk

/-- The per-entry step of `get_all_crash_reports` (lines 107–116): keep
the entry only if its extension is `"json"`, its content reads
successfully and deserializes as a `CrashReport`. -/
def crashEntryReport (w : World) (d : String) (name : String) : Option CrashReport :=
  if fileExtension name = some "json" then
    match w.readFile (d ++ "/" ++ name) with
    | some content => parseCrashReport content
    | none => none
  else none

/-- The reports in directory-enumeration order, before sorting
(lines 103–118; a missing crashes dir or failing `read_dir` yields the
empty vector). -/
def enumeratedReports (w : World) : List CrashReport :=
  match get_crashes_dir w with
  | none => []
  | some d =>
    match w.readDir d with
    | none => []
    | some entries => entries.filterMap (crashEntryReport w d)

/-- The comparator of line 121, `|a, b| b.timestamp.cmp(&a.timestamp)`,
as the "a sorts no later than b" relation: `b.timestamp ≤ a.timestamp`. -/
def tsDescLe (a b : CrashReport) : Bool := b.timestamp ≤ a.timestamp

/-- `get_all_crash_reports` (lines 102–123).  Rust's `sort_by` is a
stable sort; for a total preorder the stable sorted permutation is
unique, and `List.mergeSort` is stable, so it embeds `sort_by`
exactly. -/
def get_all_crash_reports (w : World) : List CrashReport :=
  (enumeratedReports w).mergeSort tsDescLe

/-- World after writing file `name` (full path `path`, contents
`content`) into directory `d`, creating `d` if needed. -/
def writeWorld (w : World) (d name path content : String) : World :=
  { w with
    dirExists := fun x => if x = d then true else w.dirExists x
    readFile := fun x => if x = path then some content else w.readFile x
    readDir := fun x =>
      if x = d then
        some (match w.readDir d with
              | some es => if name ∈ es then es else es ++ [name]
              | none => [name])
      else w.readDir x }

/-- `CrashReport::save` (crash_handler.rs lines 61–78): resolve the
crashes directory next to the executable (`parent().unwrap_or(".")`),
`create_dir_all` it, create-or-overwrite `<dir>/<filename>` with the
pretty JSON plus a trailing newline, and return the path. -/
def CrashReport.save (w : World) (r : CrashReport) : Except String (String × World) :=
  match w.currentExe with
  | none => .error "current_exe failed"
  | some _ =>
    let base := w.exeParent.getD "."
    let crash_dir := base ++ "/crashes"
    match (if w.dirExists crash_dir then none else w.createDirErr crash_dir) with
    | some e => .error e
    | none =>
      let path := crash_dir ++ "/" ++ r.filename
      match w.createFileErr path with
      | some e => .error e
      | none => .ok (path, writeWorld w crash_dir r.filename path (r.to_json ++ "\n"))

/-- World after `fs::remove_dir_all d`: the directory, its listing and
every file under it are gone. -/
def removeDirWorld (w : World) (d : String) : World :=
  { w with
    dirExists := fun x => if x = d then false else w.dirExists x
    readDir := fun x => if x = d then none else w.readDir x
    readFile := fun x => if (d ++ "/").isPrefixOf x then none else w.readFile x }

/-- `clear_all_crash_reports` (crash_handler.rs lines 126–134): remove
the crashes directory recursively when it exists (propagating a removal
error), succeed without doing anything when it does not. -/
def clear_all_crash_reports (w : World) : Except String World :=
  match get_crashes_dir w with
  | none => .ok w
  | some d =>
    if w.dirExists d then
      match w.removeDirErr d with
      | some e => .error e
      | none => .ok (removeDirWorld w d)
    else .ok w

/-- The `get_crash_reports` tauri command (main.rs lines 320–323):
`Ok(get_all_crash_reports())`. -/
def get_crash_reports (w : World) : Except String (List CrashReport) :=
  .ok (get_all_crash_reports w)

/-- The `clear_crash_reports` tauri command (main.rs lines 371–374):
`clear_all_crash_reports().map_err(|e| e.to_string())`. -/
def clear_crash_reports (w : World) : Except String World :=
  clear_all_crash_reports w

/-! ## Package-manager resolution (`get_uv_path`, main.rs lines 15–94)

Ambient state: the `DAWEI_UV_PATH` environment variable, the
executable's directory (the source `unwrap`s `current_exe`/`parent`
here, so they are total inputs), `Path::exists`, `fs::canonicalize`
(`none` = `Err`), and the result of the `which uv` search-path lookup
(`none` = command failed or unsuccessful status; the `cfg(windows)`
`where` branch is symmetric and not separately modelled). -/

structure UvEnv where
  daweiUvPath : Option String
  exeDir : String
  pathExists : String → Bool
  canonicalize : String → Option String
  whichUv : Option String

/-- Rust `str::contains` on character lists. -/
def hasSubstr (l pat : List Char) : Bool :=
  l.tails.any (fun t => pat.isPrefixOf t)

/-- `get_uv_path` (main.rs lines 15–94): env-var override, else the two
bundled candidate paths, else the bare `"uv"`; then canonicalize, with
a `which uv` fallback for a non-standalone path that fails to
canonicalize. -/
def get_uv_path (e : UvEnv) : String :=
  let uv_path :=
    match e.daweiUvPath with
    | some p => p
    | none =>
      let standalone_uv := e.exeDir ++ "/resources/python-env/bin/uv"
      let standalone_uv_bat := e.exeDir ++ "/resources/python-env/Scripts/uv.exe"
      if e.pathExists standalone_uv then standalone_uv
      else if e.pathExists standalone_uv_bat then standalone_uv_bat
      else "uv"
  let is_standalone_uv := hasSubstr uv_path.data "resources/python-env".data
  if is_standalone_uv then
    match e.canonicalize uv_path with
    | some c => c
    | none => uv_path
  else
    match e.canonicalize uv_path with
    | some c => c
    | none =>
      match e.whichUv with
      | some p => p
      | none => uv_path

/-! ## Process supervisor (spec §4.2) -/

/-- Observable actions of a `restart`, in order. -/
inductive SupEvent where
  | stopCall
  | delayMs (n : Nat)
  | startCall
deriving Repr, DecidableEq

/-- Modelled from the spec: `ProcessSupervisor.stop()`/`restart()` are
absent from the sources (main.rs only implements `start_backend`);
spec §4.2 specifies `restart()` as `stop()`, then a fixed bounded
non-zero cool-down delay, then `start()`, and on `stop()` failure the
whole operation fails without attempting `start()`.  The outcomes the
two composed calls would produce are threaded as explicit data. -/
structure Supervisor where
  stopResult : Except String String
  startResult : Except String String

/-- Modelled from the spec: the fixed cool-down; the spec requires it
bounded and non-zero but names no figure. -/
def restartCooldownMs : Nat := 1000

/-- Modelled from the spec: `restart()`, returning its result together
with the ordered trace of actions taken. -/
def Supervisor.restart (s : Supervisor) : Except String String × List SupEvent :=
  match s.stopResult with
  | .error e => (.error e, [.stopCall])
  | .ok _ =>
    match s.startResult with
    | .ok log => (.ok log, [.stopCall, .delayMs restartCooldownMs, .startCall])
    | .error e => (.error e, [.stopCall, .delayMs restartCooldownMs, .startCall])

/-! ## Concrete fixtures used by witness theorems -/

def rRt : CrashReport :=
  { timestamp := 1700000000
    timestamp_iso := "2023-11-14T22:13:20+00:00"
    error_message := "Panic at src/main.rs:1:5: index out of bounds"
    backtrace := "0: main\n1: start"
    platform := "linux"
    app_version := "0.1.0"
    filename := "crash_20231114_221320.json" }

def rRt2 : CrashReport := { rRt with error_message := "second crash, same second" }

def wNoExe : World :=
  { currentExe := none, exeParent := none, dirExists := fun _ => false
    readDir := fun _ => none, readFile := fun _ => none
    createDirErr := fun _ => none, createFileErr := fun _ => none
    removeDirErr := fun _ => none }

def wPartial : World :=
  { currentExe := some "/app/bin/host"
    exeParent := some "/app/bin"
    dirExists := fun p => p == "/app/bin/crashes"
    readDir := fun p =>
      if p == "/app/bin/crashes" then some ["good.json", "bad.json", "notes.txt"] else none
    readFile := fun p =>
      if p == "/app/bin/crashes/good.json" then some (rRt.to_json ++ "\n")
      else if p == "/app/bin/crashes/bad.json" then some "not json at all"
      else none
    createDirErr := fun _ => none
    createFileErr := fun _ => none
    removeDirErr := fun _ => none }

def wRemoveFails : World :=
  { wPartial with
    removeDirErr := fun p => if p == "/app/bin/crashes" then some "permission denied" else none }

def wSaveBase : World :=
  { currentExe := some "/app/bin/host", exeParent := some "/app/bin"
    dirExists := fun _ => false, readDir := fun _ => none, readFile := fun _ => none
    createDirErr := fun _ => none, createFileErr := fun _ => none
    removeDirErr := fun _ => none }

def pSaved : String := "/app/bin/crashes/crash_20231114_221320.json"

def wSaved : World :=
  writeWorld wSaveBase ("/app/bin" ++ "/crashes") rRt.filename
    ("/app/bin" ++ "/crashes" ++ "/" ++ rRt.filename) (rRt.to_json ++ "\n")

def wSaved2 : World :=
  writeWorld wSaved ("/app/bin" ++ "/crashes") rRt2.filename
    ("/app/bin" ++ "/crashes" ++ "/" ++ rRt2.filename) (rRt2.to_json ++ "\n")

def uvEnvSymlinked : UvEnv :=
  { daweiUvPath := none
    exeDir := "/opt/app"
    pathExists := fun p => p == "/opt/app/resources/python-env/bin/uv"
    canonicalize := fun _ => some "/data/real-env/bin/uv"
    whichUv := none }

def uvEnvBundled : UvEnv :=
  { daweiUvPath := none
    exeDir := "/opt/app"
    pathExists := fun p => p == "/opt/app/resources/python-env/bin/uv"
    canonicalize := fun p => some p
    whichUv := some "/usr/bin/uv" }

def uvEnvNoBundle : UvEnv :=
  { daweiUvPath := none
    exeDir := "/opt/app"
    pathExists := fun _ => false
    canonicalize := fun _ => none
    whichUv := some "/usr/bin/uv" }

def supStopFails : Supervisor :=
  { stopResult := .error "stop failed", startResult := .ok "started" }

def supStopOk : Supervisor :=
  { stopResult := .ok "stopped", startResult := .ok "started" }

/-! ## Theorems -/

/-! ### JSON round-trip lemmas -/

theorem stringMk_data (s : String) : String.mk s.data = s := rfl

theorem skipWs_cons_ws (c : Char) (l : List Char) (h : isJsonWs c = true) :
    skipWs (c :: l) = skipWs l := by
  simp [skipWs, List.dropWhile_cons, h]

theorem skipWs_cons_not_ws (c : Char) (l : List Char) (h : isJsonWs c = false) :
    skipWs (c :: l) = c :: l := by
  simp [skipWs, List.dropWhile_cons, h]

theorem isDig_not_ws (c : Char) (h : isDig c = true) : isJsonWs c = false := by
  simp only [isDig, Bool.and_eq_true, decide_eq_true_eq] at h
  by_contra hw
  rw [Bool.not_eq_false] at hw
  simp only [isJsonWs, Bool.or_eq_true, decide_eq_true_eq] at hw
  rcases hw with ((hc | hc) | hc) | hc <;> subst hc <;> revert h <;> decide

theorem parseJvalTok_str (s : String) (rest : List Char) :
    parseJvalTok ('"' :: (escapeList s.data ++ '"' :: rest)) = some (.jstr s, rest) := by
  simp [parseJvalTok, parseStringBody_escapeList, stringMk_data]

theorem parseJvalTok_num (n : Nat) (c : Char) (rest : List Char) (hc : isDig c = false) :
    parseJvalTok (printNatChars n ++ c :: rest) = some (.jnum n, c :: rest) := by
  cases h : printNatChars n with
  | nil => exact absurd h (printNatChars_ne_nil n)
  | cons x xs =>
    have hx : isDig x = true := printNatChars_all_digits n x (by simp [h])
    have hxq : ¬x = '"' := by
      intro hq
      subst hq
      simp [isDig] at hx
    show parseJvalTok ((x :: xs) ++ c :: rest) = _
    simp only [List.cons_append, parseJvalTok, hxq, if_false, hx, if_true]
    rw [← List.cons_append, ← h, parseNumber_print n c rest hc]

theorem skipWs_sp (l : List Char) : skipWs (' ' :: l) = skipWs l := by
  rw [skipWs, List.dropWhile_cons, if_pos (by decide : isJsonWs ' ' = true)]
  rfl

theorem skipWs_nl (l : List Char) : skipWs ('\n' :: l) = skipWs l := by
  rw [skipWs, List.dropWhile_cons, if_pos (by decide : isJsonWs '\n' = true)]
  rfl

theorem skipWs_quote (l : List Char) : skipWs ('"' :: l) = '"' :: l := by
  rw [skipWs, List.dropWhile_cons, if_neg]
  decide

theorem skipWs_colon (l : List Char) : skipWs (':' :: l) = ':' :: l := by
  rw [skipWs, List.dropWhile_cons, if_neg]
  decide

theorem skipWs_comma (l : List Char) : skipWs (',' :: l) = ',' :: l := by
  rw [skipWs, List.dropWhile_cons, if_neg]
  decide

theorem skipWs_rbrace (l : List Char) : skipWs ('}' :: l) = '}' :: l := by
  rw [skipWs, List.dropWhile_cons, if_neg]
  decide

theorem not_dig_nl : isDig '\n' = false := by decide

theorem skipWs_printNatChars (n : Nat) (t : List Char) :
    skipWs (printNatChars n ++ t) = printNatChars n ++ t := by
  cases h : printNatChars n with
  | nil => exact absurd h (printNatChars_ne_nil n)
  | cons x xs =>
    have hx := isDig_not_ws x (printNatChars_all_digits n x (by simp [h]))
    simp [skipWs, List.dropWhile_cons, hx]

theorem parseMembers_printMembersSep (ms : List (String × Jval)) :
    ∀ (tail : List Char) (fuel : Nat), ms ≠ [] → ms.length ≤ fuel →
      parseMembers fuel (skipWs (printMembersSep ms ++ '\n' :: '}' :: tail))
        = some (ms, tail) := by
  induction ms with
  | nil => intro tail fuel hne _; exact absurd rfl hne
  | cons hd tl ih =>
    intro tail fuel _ hfuel
    obtain ⟨k, v⟩ := hd
    cases fuel with
    | zero => simp at hfuel
    | succ fuel =>
      rcases tl with _ | ⟨m, ms'⟩
      · -- last member: the member text is followed by "\n}"
        cases v with
        | jstr s =>
          simp only [printMembersSep, printMember, printJval, List.cons_append,
            List.append_assoc, List.singleton_append, List.nil_append]
          simp only [skipWs_sp, skipWs_quote, parseMembers, if_true]
          rw [parseStringBody_escapeList]
          simp only [skipWs_colon, skipWs_sp, skipWs_quote, reduceIte, parseJvalTok_str,
            skipWs_nl, skipWs_rbrace, stringMk_data]
          rw [if_neg (by decide : ¬(('}' : Char) = ','))]
        | jnum n =>
          simp only [printMembersSep, printMember, printJval, List.cons_append,
            List.append_assoc, List.singleton_append, List.nil_append]
          simp only [skipWs_sp, skipWs_quote, parseMembers, if_true]
          rw [parseStringBody_escapeList]
          simp only [skipWs_colon, skipWs_sp, skipWs_printNatChars, reduceIte]
          rw [parseJvalTok_num n '\n' _ not_dig_nl]
          simp only [skipWs_nl, skipWs_rbrace, reduceIte, stringMk_data]
          rw [if_neg (by decide : ¬(('}' : Char) = ','))]
      · -- middle member: the member text is followed by ",\n" and the rest
        have hih := ih tail fuel (by simp) (by simp at hfuel ⊢; omega)
        cases v with
        | jstr s =>
          simp only [printMembersSep, printMember, printJval, List.cons_append,
            List.append_assoc, List.singleton_append, List.nil_append] at hih ⊢
          simp only [skipWs_sp, skipWs_quote, parseMembers, if_true]
          rw [parseStringBody_escapeList]
          simp only [skipWs_colon, skipWs_sp, skipWs_quote, reduceIte, parseJvalTok_str,
            skipWs_comma, skipWs_nl, hih, stringMk_data]
        | jnum n =>
          simp only [printMembersSep, printMember, printJval, List.cons_append,
            List.append_assoc, List.singleton_append, List.nil_append] at hih ⊢
          simp only [skipWs_sp, skipWs_quote, parseMembers, if_true]
          rw [parseStringBody_escapeList]
          simp only [skipWs_colon, skipWs_sp, skipWs_printNatChars, reduceIte]
          rw [parseJvalTok_num n ',' _ (by decide : isDig ',' = false)]
          simp only [skipWs_comma, skipWs_nl, reduceIte, hih, stringMk_data]

theorem skipWs_lbrace (l : List Char) : skipWs ('{' :: l) = '{' :: l := by
  rw [skipWs, List.dropWhile_cons, if_neg]
  decide

theorem dataMk (l : List Char) : (String.mk l).data = l := rfl

theorem parseFlatObj_to_json (r : CrashReport) :
    parseFlatObj r.to_json = some r.fields := by
  have h := fun fuel hf => parseMembers_printMembersSep r.fields [] fuel
    (by simp [CrashReport.fields]) hf
  simp only [CrashReport.fields, printMembersSep, printMember, printJval, List.cons_append,
    List.append_assoc, List.singleton_append, List.nil_append, skipWs_sp, skipWs_quote,
    List.length_cons, List.length_nil] at h
  show parseFlatObj (String.mk (printFlatObj r.fields)) = some r.fields
  unfold parseFlatObj
  simp only [dataMk, CrashReport.fields, printFlatObj, printMembersSep, printMember, printJval,
    List.cons_append, List.append_assoc, List.singleton_append, List.nil_append]
  simp only [skipWs_lbrace, skipWs_nl, skipWs_sp, skipWs_quote]
  rw [if_pos trivial, if_neg (by decide : ¬(('"' : Char) = '}'))]
  rw [h _ (by
    simp only [List.length_cons, List.length_append]
    omega)]
  rfl

/-- C2: serializing any `CrashReport` to its on-disk JSON form
(`to_json`) and parsing that text back yields a value equal to the
original in all seven fields (the `u64` bound on `timestamp` is the
representable range of the source field). -/
theorem crashReport_to_json_roundtrip (r : CrashReport) (h : r.timestamp < 2 ^ 64) :
    parseCrashReport r.to_json = some r := by
  have h' : r.timestamp < 18446744073709551616 := by omega
  unfold parseCrashReport
  rw [parseFlatObj_to_json]
  simp [jlookup, getU64Field, getStrField, CrashReport.fields, h']


/-- C9: for every environment and every (message, backtrace) pair,
`CrashReport::new` copies `error_message` and `backtrace` verbatim; it is
a pure function of the explicitly-passed ambient data (no I/O). -/
theorem crashReport_new_preserves_inputs (env : NewEnv) (m b : String) :
    (CrashReport.new env m b).error_message = m ∧
    (CrashReport.new env m b).backtrace = b :=
  ⟨rfl, rfl⟩

/-- C6: the panic hook's message derivation: an unrecognized payload
yields the fixed placeholder `"Unknown panic"`, and whenever a source
location is available the message is prefixed with
`"Panic at <file>:<line>:<column>: "`. -/
theorem panic_hook_message_derivation :
    (∀ loc : Option PanicLocation,
      panicFullError .other loc =
        match loc with
        | some l => "Panic at " ++ panicLocationString l ++ ": " ++ "Unknown panic"
        | none => "Unknown panic") ∧
    (∀ (p : PanicPayload) (l : PanicLocation),
      panicFullError p (some l) =
        "Panic at " ++ l.file ++ ":" ++ toString l.line ++ ":" ++ toString l.column
          ++ ": " ++ panicMessage p) := by
  constructor
  · intro loc
    cases loc <;> rfl
  · intro p l
    rfl

theorem tsDescLe_trans (a b c : CrashReport) :
    tsDescLe a b → tsDescLe b c → tsDescLe a c := by
  simp only [tsDescLe, decide_eq_true_eq]
  omega

theorem tsDescLe_total (a b : CrashReport) : tsDescLe a b || tsDescLe b a := by
  simp only [tsDescLe, Bool.or_eq_true, decide_eq_true_eq]
  omega

theorem filterMap_length_countP {α β : Type} (f : α → Option β) (l : List α) :
    (l.filterMap f).length = l.countP (fun a => (f a).isSome) := by
  induction l with
  | nil => rfl
  | cons a l ih =>
    cases h : f a <;> simp [List.filterMap_cons, h, List.countP_cons, ih]

/-- C1: `get_all_crash_reports` returns the reports sorted descending by
`timestamp` (every adjacent pair satisfies `a.timestamp ≥ b.timestamp`),
with ties broken stably: for each timestamp value, the reports carrying
it appear in the underlying directory-enumeration order. -/
theorem get_all_crash_reports_sorted_desc_stable (w : World) :
    List.Chain' (fun a b => b.timestamp ≤ a.timestamp) (get_all_crash_reports w) ∧
    (∀ t : Nat, (get_all_crash_reports w).filter (fun r => r.timestamp == t)
      = (enumeratedReports w).filter (fun r => r.timestamp == t)) := by
  constructor
  · have hp := List.sorted_mergeSort tsDescLe_trans tsDescLe_total (enumeratedReports w)
    exact (hp.imp (fun {a b} hab => by
      simpa only [tsDescLe, decide_eq_true_eq] using hab)).chain'
  · intro t
    have hpw : ((enumeratedReports w).filter (fun r => r.timestamp == t)).Pairwise
        (fun a b => tsDescLe a b) := by
      apply List.pairwise_of_forall_mem_list
      intro a ha b hb
      have ha' := (List.mem_filter.mp ha).2
      have hb' := (List.mem_filter.mp hb).2
      simp only [beq_iff_eq] at ha' hb'
      simp only [tsDescLe, decide_eq_true_eq, ha', hb', le_refl]
    have hsub : List.Sublist ((enumeratedReports w).filter (fun r => r.timestamp == t))
        (enumeratedReports w) := List.filter_sublist _
    have h1 := List.sublist_mergeSort tsDescLe_trans tsDescLe_total hpw hsub
    have h2 := h1.filter (fun r => r.timestamp == t)
    rw [List.filter_eq_self.mpr (fun a ha => (List.mem_filter.mp ha).2)] at h2
    have h3 : ((List.mergeSort (enumeratedReports w) tsDescLe).filter
          (fun r => r.timestamp == t)).length
        = ((enumeratedReports w).filter (fun r => r.timestamp == t)).length :=
      ((List.mergeSort_perm (enumeratedReports w) tsDescLe).filter _).length_eq
    exact (h2.eq_of_length h3.symm).symm

/-- C3: when the crashes directory enumerates `names`, the result of
`get_all_crash_reports` is exactly (a permutation of) the entries that
carry a `.json` extension, read successfully and parse as
`CrashReport`s; corrupt or foreign files are skipped and contribute
nothing, and the function is total (it cannot raise). -/
theorem get_all_crash_reports_skips_unparsable (w : World) (d : String)
    (names : List String) (h1 : get_crashes_dir w = some d)
    (h2 : w.readDir d = some names) :
    (get_all_crash_reports w).Perm (names.filterMap (crashEntryReport w d)) ∧
    (get_all_crash_reports w).length
      = names.countP (fun n => (crashEntryReport w d n).isSome) := by
  have he : enumeratedReports w = names.filterMap (crashEntryReport w d) := by
    simp [enumeratedReports, h1, h2]
  constructor
  · rw [get_all_crash_reports, he]
    exact List.mergeSort_perm _ _
  · rw [get_all_crash_reports, List.length_mergeSort, he,
      filterMap_length_countP]

/-- C10: crash-report retrieval is total: `get_crash_reports` always
returns `Ok` with the (possibly empty) report list, and a missing
crashes directory or a failing directory read yields the empty list
rather than an error. -/
theorem get_crash_reports_never_errors (w : World) :
    get_crash_reports w = .ok (get_all_crash_reports w) ∧
    (get_crashes_dir w = none → get_all_crash_reports w = []) ∧
    (∀ d, get_crashes_dir w = some d → w.readDir d = none →
      get_all_crash_reports w = []) := by
  refine ⟨rfl, ?_, ?_⟩
  · intro h
    simp [get_all_crash_reports, enumeratedReports, h]
  · intro d h1 h2
    simp [get_all_crash_reports, enumeratedReports, h1, h2]

/-- C4: `restart()` invokes `stop()` first; on `stop()` failure the whole
restart fails with that error and `start()` is never invoked; on success
the trace is stop, then the fixed non-zero cool-down delay, then start. -/
theorem supervisor_restart_stop_gates_start (s : Supervisor) :
    (∀ e, s.stopResult = .error e →
      s.restart = (.error e, [.stopCall]) ∧ SupEvent.startCall ∉ s.restart.2) ∧
    (∀ m, s.stopResult = .ok m →
      s.restart.2 = [.stopCall, .delayMs restartCooldownMs, .startCall] ∧
      0 < restartCooldownMs) := by
  constructor
  · intro e he
    refine ⟨by simp [Supervisor.restart, he], ?_⟩
    simp [Supervisor.restart, he]
  · intro m hm
    cases hs : s.startResult <;>
      simp [Supervisor.restart, hm, hs, restartCooldownMs]

/-- C7: a successful `save` returns the path
`<exe-parent or "."></crashes>/<filename>`, leaves the crashes directory
existing, stores the pretty JSON plus a trailing newline at that path
(create-or-overwrite), and a second successful save with the same
filename overwrites the first report. -/
theorem crashReport_save_props (w : World) (r : CrashReport) (p : String) (w' : World)
    (h : CrashReport.save w r = .ok (p, w')) :
    p = (w.exeParent.getD ".") ++ "/crashes" ++ "/" ++ r.filename ∧
    w'.readFile p = some (r.to_json ++ "\n") ∧
    w'.dirExists ((w.exeParent.getD ".") ++ "/crashes") = true ∧
    (∀ (r₂ : CrashReport) (p₂ : String) (w₂ : World), r₂.filename = r.filename →
      CrashReport.save w' r₂ = .ok (p₂, w₂) →
      p₂ = p ∧ w₂.readFile p = some (r₂.to_json ++ "\n")) := by
  unfold CrashReport.save at h
  cases hce : w.currentExe with
  | none => rw [hce] at h; exact absurd h (by simp)
  | some exe =>
    rw [hce] at h
    simp only [] at h
    cases hgate : (if w.dirExists (w.exeParent.getD "." ++ "/crashes") then none
        else w.createDirErr (w.exeParent.getD "." ++ "/crashes")) with
    | some e => rw [hgate] at h; exact absurd h (by simp)
    | none =>
      rw [hgate] at h
      cases hfe : w.createFileErr (w.exeParent.getD "." ++ "/crashes" ++ "/" ++ r.filename) with
      | some e => rw [hfe] at h; exact absurd h (by simp)
      | none =>
        rw [hfe] at h
        simp only [Except.ok.injEq, Prod.mk.injEq] at h
        obtain ⟨hp, hw⟩ := h
        subst hp
        subst hw
        refine ⟨rfl, ?_, ?_, ?_⟩
        · simp [writeWorld]
        · simp [writeWorld]
        · intro r₂ p₂ w₂ hfn h₂
          unfold CrashReport.save at h₂
          have hce' : (writeWorld w (w.exeParent.getD "." ++ "/crashes") r.filename
              (w.exeParent.getD "." ++ "/crashes" ++ "/" ++ r.filename)
              (r.to_json ++ "\n")).currentExe = some exe := by
            simp [writeWorld, hce]
          rw [hce'] at h₂
          simp only [writeWorld] at h₂
          rw [if_pos (by simp)] at h₂
          rw [hfn] at h₂
          rw [hfe] at h₂
          simp only [Except.ok.injEq, Prod.mk.injEq] at h₂
          obtain ⟨hp₂, hw₂⟩ := h₂
          subst hp₂
          subst hw₂
          refine ⟨rfl, ?_⟩
          simp [writeWorld]

/-- C8: `clear_all_crash_reports` removes the crash directory when it
exists (and a subsequent `get_all_crash_reports` returns the empty
list), succeeds without error when the directory is absent, and
propagates an I/O error from the removal itself. -/
theorem clear_all_crash_reports_props (w : World) :
    (∀ d, get_crashes_dir w = some d → w.dirExists d = true → w.removeDirErr d = none →
      clear_all_crash_reports w = .ok (removeDirWorld w d) ∧
      get_all_crash_reports (removeDirWorld w d) = []) ∧
    (∀ d, get_crashes_dir w = some d → w.dirExists d = false →
      clear_all_crash_reports w = .ok w) ∧
    (∀ d e, get_crashes_dir w = some d → w.dirExists d = true →
      w.removeDirErr d = some e → clear_all_crash_reports w = .error e) := by
  refine ⟨?_, ?_, ?_⟩
  · intro d h1 h2 h3
    constructor
    · simp [clear_all_crash_reports, h1, h2, h3]
    · have hsame : get_crashes_dir (removeDirWorld w d) = some d := by
        rw [show get_crashes_dir (removeDirWorld w d) = get_crashes_dir w from rfl, h1]
      simp only [get_all_crash_reports, enumeratedReports, hsame]
      simp [removeDirWorld]
  · intro d h1 h2
    simp [clear_all_crash_reports, h1, h2]
  · intro d e h1 h2 h3
    simp [clear_all_crash_reports, h1, h2, h3]

theorem hasSubstr_of_append (xs pat ys : List Char) :
    hasSubstr (xs ++ (pat ++ ys)) pat = true := by
  unfold hasSubstr
  rw [List.any_eq_true]
  refine ⟨pat ++ ys, ?_, List.isPrefixOf_iff_prefix.mpr (List.prefix_append _ _)⟩
  rw [List.mem_tails]
  exact ⟨xs, rfl⟩

theorem hasSubstr_standalone_path (base : String) :
    hasSubstr (base ++ "/resources/python-env/bin/uv").data
      ("resources/python-env".data) = true := by
  have hsplit : (base ++ "/resources/python-env/bin/uv").data
      = (base.data ++ ['/']) ++ ("resources/python-env".data ++ "/bin/uv".data) := by
    rw [String.data_append]
    simp [List.append_assoc]
  rw [hsplit]
  exact hasSubstr_of_append _ _ _

/-- C5 (amended): with no override variable set, a bundled `uv` at the
fixed relative path resolves to that path *as normalized by
`fs::canonicalize`* (the path itself only when canonicalization fails),
never consulting the `which` search-path lookup; with no bundled
runtime, the bare name `"uv"` is used, but it is then resolved through
`fs::canonicalize` or the `which uv` search-path lookup when either
succeeds, and only returned bare when both fail. -/
theorem get_uv_path_standalone_resolution (e : UvEnv) (h1 : e.daweiUvPath = none) :
    (e.pathExists (e.exeDir ++ "/resources/python-env/bin/uv") = true →
      get_uv_path e
        = (e.canonicalize (e.exeDir ++ "/resources/python-env/bin/uv")).getD
            (e.exeDir ++ "/resources/python-env/bin/uv")) ∧
    (e.pathExists (e.exeDir ++ "/resources/python-env/bin/uv") = false →
      e.pathExists (e.exeDir ++ "/resources/python-env/Scripts/uv.exe") = false →
      get_uv_path e
        = match e.canonicalize "uv" with
          | some c => c
          | none => e.whichUv.getD "uv") := by
  constructor
  · intro hx
    unfold get_uv_path
    rw [h1]
    simp only [hx, if_true]
    rw [if_pos (hasSubstr_standalone_path e.exeDir)]
    cases hc : e.canonicalize (e.exeDir ++ "/resources/python-env/bin/uv") <;>
      simp [hc]
  · intro hx1 hx2
    unfold get_uv_path
    rw [h1]
    simp only [hx1, hx2, if_false, Bool.false_eq_true]
    rw [if_neg (by decide)]
    cases hc : e.canonicalize "uv" <;> cases hw : e.whichUv <;> simp [hc, hw]

/-- C5 counterexample: the bundled executable exists and no override is
set, yet `get_uv_path` does not return that exact bundled path —
`fs::canonicalize` may rewrite it (here: the bundled tree sits behind a
symlink). -/
theorem get_uv_path_not_exact_bundled :
    uvEnvSymlinked.daweiUvPath = none ∧
    uvEnvSymlinked.pathExists
      (uvEnvSymlinked.exeDir ++ "/resources/python-env/bin/uv") = true ∧
    get_uv_path uvEnvSymlinked ≠ "/opt/app/resources/python-env/bin/uv" := by
  refine ⟨rfl, by decide, by decide⟩

theorem get_uv_path_standalone_resolution_witness :
    get_uv_path uvEnvBundled = "/opt/app/resources/python-env/bin/uv" ∧
    get_uv_path uvEnvNoBundle = "/usr/bin/uv" :=
  ⟨((get_uv_path_standalone_resolution uvEnvBundled rfl).1 (by decide)).trans (by decide),
   ((get_uv_path_standalone_resolution uvEnvNoBundle rfl).2 (by decide) (by decide)).trans
     (by decide)⟩

theorem supervisor_restart_stop_gates_start_witness :
    (supStopFails.restart = (.error "stop failed", [.stopCall]) ∧
      SupEvent.startCall ∉ supStopFails.restart.2) ∧
    (supStopOk.restart.2 = [.stopCall, .delayMs restartCooldownMs, .startCall] ∧
      0 < restartCooldownMs) :=
  ⟨(supervisor_restart_stop_gates_start supStopFails).1 "stop failed" rfl,
   (supervisor_restart_stop_gates_start supStopOk).2 "stopped" rfl⟩

theorem crashReport_to_json_roundtrip_witness :
    rRt.timestamp < 2 ^ 64 ∧ parseCrashReport rRt.to_json = some rRt :=
  ⟨by decide, crashReport_to_json_roundtrip rRt (by decide)⟩

theorem get_all_crash_reports_skips_unparsable_witness :
    (get_all_crash_reports wPartial).Perm
      (["good.json", "bad.json", "notes.txt"].filterMap
        (crashEntryReport wPartial "/app/bin/crashes")) ∧
    (get_all_crash_reports wPartial).length
      = ["good.json", "bad.json", "notes.txt"].countP
          (fun n => (crashEntryReport wPartial "/app/bin/crashes" n).isSome) :=
  get_all_crash_reports_skips_unparsable wPartial "/app/bin/crashes"
    ["good.json", "bad.json", "notes.txt"] rfl (by decide)

theorem get_crash_reports_never_errors_witness :
    get_crash_reports wNoExe = .ok (get_all_crash_reports wNoExe) ∧
    get_all_crash_reports wNoExe = [] :=
  ⟨(get_crash_reports_never_errors wNoExe).1,
   (get_crash_reports_never_errors wNoExe).2.1 rfl⟩

theorem clear_all_crash_reports_props_witness :
    (clear_all_crash_reports wPartial
        = .ok (removeDirWorld wPartial "/app/bin/crashes") ∧
      get_all_crash_reports (removeDirWorld wPartial "/app/bin/crashes") = []) ∧
    clear_all_crash_reports wRemoveFails = .error "permission denied" :=
  ⟨(clear_all_crash_reports_props wPartial).1 "/app/bin/crashes" rfl (by decide) rfl,
   (clear_all_crash_reports_props wRemoveFails).2.2 "/app/bin/crashes" "permission denied"
     rfl (by decide) (by decide)⟩

theorem crashReport_save_props_witness :
    CrashReport.save wSaveBase rRt = .ok (pSaved, wSaved) ∧
    wSaved.readFile pSaved = some (rRt.to_json ++ "\n") ∧
    wSaved.dirExists ("/app/bin" ++ "/crashes") = true ∧
    CrashReport.save wSaved rRt2 = .ok (pSaved, wSaved2) ∧
    wSaved2.readFile pSaved = some (rRt2.to_json ++ "\n") := by
  have h1 : CrashReport.save wSaveBase rRt = .ok (pSaved, wSaved) := rfl
  have h2 : CrashReport.save wSaved rRt2 = .ok (pSaved, wSaved2) := rfl
  have hm := crashReport_save_props wSaveBase rRt pSaved wSaved h1
  exact ⟨h1, hm.2.1, hm.2.2.1, h2, (hm.2.2.2 rRt2 pSaved wSaved2 rfl h2).2⟩
